import Mathlib

/-!
Shallow embedding of the AlephsIntro grading harness
(`tests.py`, `ex4/test_helper.py`, `ex4/main_tester.py`, `ex5/run_harness.py`)
together with proofs about the embedded operations.
-/

set_option linter.unusedVariables false
set_option linter.unnecessarySeqFocus false

/-! ## Value model for `TestRunner.compare_values` (src/tests.py)

Python test data (decoded from JSON) is `None`, a number, a string, a
boolean, or a list/tuple of such values.  `compare_values` treats lists and
tuples alike, so a single `seq` constructor models both.  The mutual list
type keeps all recursion structural. -/

mutual

inductive Value : Type where
  | none : Value
  | int (n : Int) : Value
  | str (s : String) : Value
  | bool (b : Bool) : Value
  | seq (xs : ValueList) : Value
deriving DecidableEq

inductive ValueList : Type where
  | nil : ValueList
  | cons (head : Value) (tail : ValueList) : ValueList
deriving DecidableEq

end

def ValueList.toList : ValueList → List Value
  | .nil => []
  | .cons x xs => x :: xs.toList

def ValueList.length : ValueList → Nat
  | .nil => 0
  | .cons _ xs => xs.length + 1

mutual

/-- Python `==` on the modelled value domain: `None == None` is true,
numbers/strings/booleans compare by value (with Python's `1 == True`
coercion between ints and booleans), sequences compare elementwise, and
values of different kinds are unequal. -/
def pyEq : Value → Value → Bool
  | .none, .none => true
  | .int m, .int n => m == n
  | .str s, .str t => s == t
  | .bool a, .bool b => a == b
  | .int n, .bool b => n == (if b then (1 : Int) else 0)
  | .bool b, .int n => (if b then (1 : Int) else 0) == n
  | .seq xs, .seq ys => pyEqList xs ys
  | _, _ => false

def pyEqList : ValueList → ValueList → Bool
  | .nil, .nil => true
  | .cons x xs, .cons y ys => pyEq x y && pyEqList xs ys
  | _, _ => false

end

mutual

/-- Embedding of `TestRunner.compare_values` (src/tests.py lines 111-121):
both `None` → equal; exactly one `None` → not equal; both list/tuple →
same length and recursively equal positionwise; otherwise Python `==`. -/
def compare_values : Value → Value → Bool
  | .none, .none => true
  | .none, _ => false
  | _, .none => false
  | .seq xs, .seq ys => compareValuesList xs ys
  | a, b => pyEq a b

/-- The list leg of `compare_values`: in the source it is the length check
`len(actual) != len(expected)` followed by
`all(self.compare_values(a, e) for a, e in zip(actual, expected))`;
structurally that is exactly the following recursion. -/
def compareValuesList : ValueList → ValueList → Bool
  | .nil, .nil => true
  | .cons a as, .cons b bs => compare_values a b && compareValuesList as bs
  | _, _ => false

end

example : compare_values (.seq (.cons (.int 1) (.cons (.str "x") .nil)))
    (.seq (.cons (.int 1) (.cons (.str "x") .nil))) = true := by decide

example : compare_values (.int 3) .none = false := by decide

/-- The helper `compareValuesList` agrees with the source's formulation by length
check plus zipped pairwise comparison. -/
theorem compareValuesList_eq_zip (xs ys : ValueList) :
    compareValuesList xs ys =
      (xs.toList.length == ys.toList.length &&
        (xs.toList.zip ys.toList).all (fun p => compare_values p.1 p.2)) :=
  match xs, ys with
  | .nil, .nil => by simp [compareValuesList, ValueList.toList]
  | .nil, .cons b bs => by simp [compareValuesList, ValueList.toList]
  | .cons a as, .nil => by simp [compareValuesList, ValueList.toList]
  | .cons a as, .cons b bs => by
      have ih := compareValuesList_eq_zip as bs
      simp [compareValuesList, ValueList.toList, ih, List.all_cons]
      by_cases h : compare_values a b = true <;> simp [h]

def Value.isSeq : Value → Bool
  | .seq _ => true
  | _ => false

mutual

theorem pyEq_refl : ∀ x : Value, pyEq x x = true
  | .none => by simp [pyEq]
  | .int n => by simp [pyEq]
  | .str s => by simp [pyEq]
  | .bool b => by simp [pyEq]
  | .seq xs => by simp [pyEq, pyEqList_refl xs]

theorem pyEqList_refl : ∀ xs : ValueList, pyEqList xs xs = true
  | .nil => by simp [pyEqList]
  | .cons x xs => by simp [pyEqList, pyEq_refl x, pyEqList_refl xs]

end

theorem beqSymm {α : Type} [DecidableEq α] (a b : α) : (a == b) = (b == a) := by
  by_cases h : a = b
  · subst h; rfl
  · have h2 : ¬ b = a := fun e => h e.symm
    simp [h, h2]

mutual

theorem pyEq_symm : ∀ x y : Value, pyEq x y = pyEq y x
  | .none, y => by cases y <;> simp [pyEq]
  | .int m, y => by
      cases y <;> simp only [pyEq] <;> first | rfl | exact beqSymm _ _
  | .str s, y => by
      cases y <;> simp only [pyEq] <;> first | rfl | exact beqSymm _ _
  | .bool b, y => by
      cases y <;> simp only [pyEq] <;> first | rfl | exact beqSymm _ _
  | .seq xs, y => by
      cases y with
      | seq ys => simpa [pyEq] using pyEqList_symm xs ys
      | _ => simp [pyEq]

theorem pyEqList_symm : ∀ xs ys : ValueList, pyEqList xs ys = pyEqList ys xs
  | .nil, ys => by cases ys <;> simp [pyEqList]
  | .cons x xs, ys => by
      cases ys with
      | nil => simp [pyEqList]
      | cons y ys => simp [pyEqList, pyEq_symm x y, pyEqList_symm xs ys]

end

mutual

theorem compare_values_refl : ∀ x : Value, compare_values x x = true
  | .none => by simp [compare_values]
  | .int n => by simp [compare_values, pyEq]
  | .str s => by simp [compare_values, pyEq]
  | .bool b => by simp [compare_values, pyEq]
  | .seq xs => by simp [compare_values, compareValuesList_refl xs]

theorem compareValuesList_refl : ∀ xs : ValueList, compareValuesList xs xs = true
  | .nil => by simp [compareValuesList]
  | .cons x xs => by
      simp [compareValuesList, compare_values_refl x, compareValuesList_refl xs]

end

mutual

theorem compare_values_symm : ∀ x y : Value, compare_values x y = compare_values y x
  | .none, y => by cases y <;> simp [compare_values]
  | .int m, y => by
      cases y <;> simp only [compare_values] <;> first | rfl | exact pyEq_symm _ _
  | .str s, y => by
      cases y <;> simp only [compare_values] <;> first | rfl | exact pyEq_symm _ _
  | .bool b, y => by
      cases y <;> simp only [compare_values] <;> first | rfl | exact pyEq_symm _ _
  | .seq xs, y => by
      cases y with
      | seq ys => simpa [compare_values] using compareValuesList_symm xs ys
      | _ => simp [compare_values, pyEq]

theorem compareValuesList_symm :
    ∀ xs ys : ValueList, compareValuesList xs ys = compareValuesList ys xs
  | .nil, ys => by cases ys <;> simp [compareValuesList]
  | .cons x xs, ys => by
      cases ys with
      | nil => simp [compareValuesList]
      | cons y ys =>
          simp [compareValuesList, compare_values_symm x y, compareValuesList_symm xs ys]

end

theorem compare_values_none_left (a : Value) (h : a ≠ .none) :
    compare_values .none a = false := by
  cases a <;> simp_all [compare_values]

theorem compare_values_none_right (a : Value) (h : a ≠ .none) :
    compare_values a .none = false := by
  cases a <;> simp_all [compare_values]

theorem compare_values_otherwise (a b : Value) (ha : a ≠ .none) (hb : b ≠ .none)
    (hs : (a.isSeq && b.isSeq) = false) : compare_values a b = pyEq a b := by
  cases a <;> cases b <;> simp_all [compare_values, Value.isSeq]

/-- C1: `compare_values` follows the spec's rule order: both absent →
equal; exactly one absent → not equal; both ordered sequences → equal iff
same length and every positional pair recursively equal; otherwise the
result of primitive (Python `==`) equality. -/
theorem C1_compare_values_rules :
    (compare_values .none .none = true)
    ∧ (∀ a : Value, a ≠ .none →
        compare_values a .none = false ∧ compare_values .none a = false)
    ∧ (∀ xs ys : ValueList,
        compare_values (.seq xs) (.seq ys) = true ↔
          xs.toList.length = ys.toList.length ∧
          ∀ p ∈ xs.toList.zip ys.toList, compare_values p.1 p.2 = true)
    ∧ (∀ a b : Value, a ≠ .none → b ≠ .none → (a.isSeq && b.isSeq) = false →
        compare_values a b = pyEq a b) := by
  refine ⟨rfl, fun a ha => ⟨compare_values_none_right a ha, compare_values_none_left a ha⟩,
    fun xs ys => ?_, fun a b ha hb hs => compare_values_otherwise a b ha hb hs⟩
  show compareValuesList xs ys = true ↔ _
  rw [compareValuesList_eq_zip]
  simp [List.all_eq_true]

/-- Closed witness for `C1_compare_values_rules` at concrete inputs. -/
theorem C1_compare_values_rules_witness :
    (compare_values (.int 3) .none = false)
    ∧ (compare_values (.int 3) (.str "a") = pyEq (.int 3) (.str "a")) :=
  ⟨(C1_compare_values_rules.2.1 (.int 3) (by decide)).1,
    C1_compare_values_rules.2.2.2 (.int 3) (.str "a") (by decide) (by decide) (by decide)⟩

/-- C7: `compare_values` is reflexive and symmetric on all finite
(necessarily acyclic) values. -/
theorem C7_compare_values_refl_symm :
    ∀ x y : Value, compare_values x x = true
      ∧ compare_values x y = compare_values y x :=
  fun x y => ⟨compare_values_refl x, compare_values_symm x y⟩

/-! ## `TestRunner.run_single_test` and the test session (src/tests.py)

Spec fields are read with `dict.get` and a default, so `Option` models a
key that may be absent from the JSON record. -/

inductive ExpectedOutput : Type where
  | str (s : String)
  | list (xs : List String)
deriving DecidableEq

structure TestCase : Type where
  test_name : Option String
  module : Option String
  function : Option String
  args : List Value
  kwargs : List (String × Value)
  input_text : Option (List String)
  expected_return : Option Value
  expected_output : Option ExpectedOutput

/-- Outcome of `import_function` plus `capture_output` for one test: either
the target returned `ret` with captured text `out`, or an `Exception` was
raised (import errors are re-raised as `ImportError`, an `Exception`
subclass, and any error from the target propagates out of
`capture_output`). -/
inductive ExecOutcome : Type where
  | ok (ret : Value) (out : String)
  | exc (msg : String)
deriving DecidableEq

structure TestResult : Type where
  test_name : String
  passed : Bool
  error : Option String
  actual_return : Option Value
  actual_output : Option String
deriving DecidableEq

/-- The output comparison of `run_single_test`: `output_match` starts
`False`; a list of acceptable strings is folded with `or`, a single string
is compared directly (both sides stripped). -/
def outputMatches (expected_output : ExpectedOutput) (actual_output : String) : Bool :=
  match expected_output with
  | .list es => es.foldl (fun acc e => (actual_output.trim == e.trim) || acc) false
  | .str e => actual_output.trim == e.trim

/-- Embedding of `TestRunner.run_single_test` (src/tests.py lines 123-171):
reads the spec fields with their `dict.get` defaults, and classifies the
execution outcome; every `Exception` is caught here and recorded in the
result, so the function itself never fails. -/
def run_single_test (tc : TestCase) (outcome : ExecOutcome) : TestResult :=
  let test_name := tc.test_name.getD "Unnamed Test"
  let expected_return := tc.expected_return.getD Value.none
  let expected_output := tc.expected_output.getD (.str "")
  match outcome with
  | .exc msg =>
      { test_name := test_name, passed := false,
        error := some ("Exception: " ++ msg),
        actual_return := Option.none, actual_output := Option.none }
  | .ok ret out =>
      let return_match := compare_values ret expected_return
      let output_match := outputMatches expected_output out
      { test_name := test_name,
        passed := return_match && output_match,
        error :=
          if !return_match then some "Return value mismatch"
          else if !output_match then some "Output mismatch"
          else Option.none,
        actual_return := some ret, actual_output := some out }

/-- The loop body of `TestRunner.run_all_tests`: every loaded case goes
through `run_single_test`. -/
def run_all_tests (tests : List (TestCase × ExecOutcome)) : List TestResult :=
  tests.map (fun p => run_single_test p.1 p.2)

inductive LoadOutcome : Type where
  | fileNotFound
  | badJson
  | ok (tests : List (TestCase × ExecOutcome))

/-- Model of session start: `load_test_cases` calls `sys.exit(1)` on a missing test file or invalid
JSON, before any test runs; otherwise `run_all_tests` runs every case.  The
`Except` error value is the process exit code. -/
def run_session : LoadOutcome → Except Nat (List TestResult)
  | .fileNotFound => .error 1
  | .badJson => .error 1
  | .ok ts => .ok (run_all_tests ts)

/-! ## The Battleship tester (src/ex4/main_tester.py) -/

structure Ex4Spec : Type where
  test_name : String
  function : String
  expected_output : String
deriving DecidableEq

/-- Outcome of resolving and executing one Battleship spec inside
`run_single_test`'s `try` block: `helperImportError` is the
`import_battleship_with_test_helper` path that prints and calls
`sys.exit(1)` when `test_helper` cannot be imported; `funcMissing` is the
explicit `raise Exception` for a missing function; `execExc` is any
`Exception` from the target; `execOk` is a normal run with captured
output. -/
inductive Ex4Outcome : Type where
  | helperImportError
  | funcMissing
  | execExc (msg : String)
  | execOk (out : String)
deriving DecidableEq

structure Ex4Result : Type where
  test_name : String
  passed : Bool
  error : Option String
  actual_output : String
deriving DecidableEq

/-- Embedding of `TestRunner.run_single_test` of src/ex4/main_tester.py
(lines 130-164).  The body runs inside `try/except Exception`; `sys.exit(1)`
raises `SystemExit`, which is not an `Exception` subclass, so the
`helperImportError` path escapes the per-test handler and aborts the whole
session with exit code 1 (modelled as the `Except` error). -/
def ex4_run_single_test (spec : Ex4Spec) (o : Ex4Outcome) : Except Nat Ex4Result :=
  match o with
  | .helperImportError => .error 1
  | .funcMissing =>
      .ok { test_name := spec.test_name, passed := false,
            error := some "Exception", actual_output := "" }
  | .execExc msg =>
      .ok { test_name := spec.test_name, passed := false,
            error := some "Exception", actual_output := "" }
  | .execOk out =>
      if out.trim == spec.expected_output.trim then
        .ok { test_name := spec.test_name, passed := true,
              error := Option.none, actual_output := out.trim }
      else
        .ok { test_name := spec.test_name, passed := false,
              error := some "Output mismatch", actual_output := out.trim }

/-- The loop of `run_all_tests` in src/ex4/main_tester.py: sequential, no
handler around `run_single_test`, so an escaping `SystemExit` ends the
session before the remaining specs run. -/
def ex4_run_all_tests : List (Ex4Spec × Ex4Outcome) → Except Nat (List Ex4Result)
  | [] => .ok []
  | (s, o) :: rest =>
      match ex4_run_single_test s o with
      | .error c => .error c
      | .ok r =>
          match ex4_run_all_tests rest with
          | .error c => .error c
          | .ok rs => .ok (r :: rs)

theorem run_single_test_exc (tc : TestCase) (msg : String) :
    (run_single_test tc (.exc msg)).passed = false
      ∧ (run_single_test tc (.exc msg)).error = some ("Exception: " ++ msg) := by
  simp [run_single_test]

theorem run_all_tests_length (ts : List (TestCase × ExecOutcome)) :
    (run_all_tests ts).length = ts.length := by
  simp [run_all_tests]

theorem ex4_run_all_tests_no_abort (specs : List (Ex4Spec × Ex4Outcome))
    (h : ∀ p ∈ specs, p.2 ≠ Ex4Outcome.helperImportError) :
    ∃ rs, ex4_run_all_tests specs = .ok rs ∧ rs.length = specs.length := by
  induction specs with
  | nil => exact ⟨[], rfl, rfl⟩
  | cons p rest ih =>
      obtain ⟨rs, hrs, hlen⟩ := ih (fun q hq => h q (List.mem_cons_of_mem _ hq))
      have hp := h p (List.mem_cons_self _ _)
      obtain ⟨s, o⟩ := p
      have hone : ∃ r, ex4_run_single_test s o = .ok r := by
        cases o with
        | helperImportError => exact absurd rfl hp
        | funcMissing => exact ⟨_, rfl⟩
        | execExc m => exact ⟨_, rfl⟩
        | execOk out =>
            by_cases hcmp : (out.trim == s.expected_output.trim) = true
            · exact ⟨{ test_name := s.test_name, passed := true, error := Option.none, actual_output := out.trim }, by simp [ex4_run_single_test, hcmp]⟩
            · exact ⟨{ test_name := s.test_name, passed := false, error := some "Output mismatch", actual_output := out.trim }, by simp [ex4_run_single_test, hcmp]⟩
      obtain ⟨r, hr⟩ := hone
      exact ⟨r :: rs, by simp [ex4_run_all_tests, hr, hrs], by simp [hlen]⟩

/-- A Battleship spec whose collaborator stub fails to import, followed by a
perfectly healthy spec. -/
def ex4AbortRun : List (Ex4Spec × Ex4Outcome) :=
  [(⟨"test_1", "main_flow", "done"⟩, .helperImportError),
   (⟨"test_2", "main_flow", "done"⟩, .execOk "done")]

/-- C3 counterexample: In the Battleship tester an error raised while
resolving the first spec (the collaborator stub failing to import) does not
stay at the single-test boundary: `sys.exit(1)` aborts the session, so the
second, healthy spec never runs — contradicting the claim that every
resolution/execution error is caught per test and that only a spec-load
error aborts the session. -/
theorem C3_counterexample : ex4_run_all_tests ex4AbortRun = .error 1 := rfl

/-- C3 (amended): Every `Exception` raised while resolving or executing
one spec is caught at the single-test boundary and recorded as that test's
failure, and all subsequent tests still run; a spec-load error aborts the
session — and so does, in the Battleship tester only, a failure to import
the collaborator stub (it exits via `SystemExit`, which escapes the
per-test `except Exception` handler). -/
theorem C3_per_test_error_isolation :
    (∀ ts : List (TestCase × ExecOutcome),
        run_session (.ok ts) = .ok (run_all_tests ts)
          ∧ (run_all_tests ts).length = ts.length)
    ∧ (∀ tc msg, (run_single_test tc (.exc msg)).passed = false
          ∧ (run_single_test tc (.exc msg)).error = some ("Exception: " ++ msg))
    ∧ (run_session .fileNotFound = .error 1 ∧ run_session .badJson = .error 1)
    ∧ (∀ specs : List (Ex4Spec × Ex4Outcome),
        (∀ p ∈ specs, p.2 ≠ Ex4Outcome.helperImportError) →
          ∃ rs, ex4_run_all_tests specs = .ok rs ∧ rs.length = specs.length) :=
  ⟨fun ts => ⟨rfl, run_all_tests_length ts⟩,
   fun tc msg => run_single_test_exc tc msg,
   ⟨rfl, rfl⟩,
   ex4_run_all_tests_no_abort⟩

/-- Closed witness for `C3_per_test_error_isolation`: a run where the first
test raises and the second is healthy still produces one result per spec,
in both runners. -/
theorem C3_per_test_error_isolation_witness :
    ((run_all_tests
        [(⟨some "a", some "m", some "f", [], [], Option.none, Option.none, Option.none⟩,
            .exc "boom"),
         (⟨some "b", some "m", some "g", [], [], Option.none, Option.none, Option.none⟩,
            .ok .none "")]).length = 2)
    ∧ (∃ rs, ex4_run_all_tests
        [(⟨"t1", "main_flow", "x"⟩, .execExc "boom"),
         (⟨"t2", "main_flow", "x"⟩, .execOk "x")] = .ok rs ∧ rs.length = 2) :=
  ⟨(C3_per_test_error_isolation.1 _).2,
   C3_per_test_error_isolation.2.2.2 _ (by decide)⟩

/-- C9: When the spec omits `expected_return`, the default is the absent
value, so any non-absent actual return is classified `Return value
mismatch` and the test fails, whatever the captured output was. -/
theorem C9_default_expected_return (tc : TestCase) (ret : Value) (out : String)
    (hfield : tc.expected_return = Option.none) (hret : ret ≠ Value.none) :
    (run_single_test tc (.ok ret out)).passed = false
      ∧ (run_single_test tc (.ok ret out)).error = some "Return value mismatch" := by
  have hcv : compare_values ret Value.none = false := compare_values_none_right ret hret
  simp [run_single_test, hfield, hcv]

/-- Closed witness for `C9_default_expected_return`: the target returns `7`
and even prints exactly the expected text, yet the test fails with a
return-value mismatch. -/
theorem C9_default_expected_return_witness :
    (run_single_test
        ⟨some "t", some "m", some "f", [], [], Option.none, Option.none,
          some (.str "hi")⟩ (.ok (.int 7) "hi")).passed = false
      ∧ (run_single_test
        ⟨some "t", some "m", some "f", [], [], Option.none, Option.none,
          some (.str "hi")⟩ (.ok (.int 7) "hi")).error
          = some "Return value mismatch" :=
  C9_default_expected_return _ (.int 7) "hi" rfl (by decide)

/-- A test case whose `expected_output` is the empty list of acceptable
strings and whose expected return is `5`. -/
def c10Case : TestCase :=
  ⟨some "t", some "m", some "f", [], [], Option.none, some (.int 5), some (.list [])⟩

/-- C10 counterexample: With an empty `expected_output` list the test
can indeed never pass, but it is not always classified as an output
mismatch: when the return value also differs, `run_single_test` reports
`Return value mismatch`, because the return check comes first. -/
theorem C10_counterexample :
    (run_single_test c10Case (.ok (.int 3) "hello")).error
        = some "Return value mismatch"
      ∧ some "Return value mismatch" ≠ some "Output mismatch" := by
  constructor
  · rfl
  · decide

/-- C10 (amended): With an empty `expected_output` list the output
comparison is false regardless of the captured output, so the test never
passes; it is classified `Output mismatch` exactly when the return value
matches, and `Return value mismatch` otherwise. -/
theorem C10_empty_expected_output (tc : TestCase)
    (hfield : tc.expected_output = some (.list [])) :
    (∀ o : ExecOutcome, (run_single_test tc o).passed = false)
    ∧ (∀ ret out, compare_values ret (tc.expected_return.getD Value.none) = true →
        (run_single_test tc (.ok ret out)).error = some "Output mismatch")
    ∧ (∀ ret out, compare_values ret (tc.expected_return.getD Value.none) = false →
        (run_single_test tc (.ok ret out)).error = some "Return value mismatch") := by
  refine ⟨fun o => ?_, fun ret out h => ?_, fun ret out h => ?_⟩
  · cases o with
    | exc msg => simp [run_single_test]
    | ok ret out => simp [run_single_test, hfield, outputMatches]
  · simp [run_single_test, hfield, outputMatches, h]
  · simp [run_single_test, hfield, outputMatches, h]

/-- Closed witness for `C10_empty_expected_output`: with a matching return
value the empty acceptable-output list still forces an output-mismatch
failure. -/
theorem C10_empty_expected_output_witness :
    (run_single_test c10Case (.ok (.int 5) "anything")).passed = false
      ∧ (run_single_test c10Case (.ok (.int 5) "anything")).error
          = some "Output mismatch" :=
  ⟨(C10_empty_expected_output c10Case rfl).1 _,
   (C10_empty_expected_output c10Case rfl).2.1 (.int 5) "anything" (by decide)⟩

/-! ## The deterministic helper (src/ex4/test_helper.py)

Module-level globals `INPUT_QUEUE`, `_input_index`, `SHIP_PLACEMENTS`,
`_ship_index`, `TORPEDO_SEQUENCE`, `_torpedo_index` and the captured stdout
text become explicit state records. -/

structure HelperState : Type where
  INPUT_QUEUE : List String
  input_index : Nat
  sink : String
deriving DecidableEq

/-- Embedding of `get_input` (src/ex4/test_helper.py lines 30-43): print the
prompt with no newline; if the queue is exhausted print a bare newline and
return `""`; otherwise take the next entry, advance the cursor, echo the
entry (with newline) and return it. -/
def get_input (msg : String) (s : HelperState) : String × HelperState :=
  let s1 : HelperState := { s with sink := s.sink ++ msg }
  if h : s1.input_index ≥ s1.INPUT_QUEUE.length then
    ("", { s1 with sink := s1.sink ++ "\n" })
  else
    let val := s1.INPUT_QUEUE.get ⟨s1.input_index, by omega⟩
    (val, { s1 with input_index := s1.input_index + 1,
                    sink := s1.sink ++ val ++ "\n" })

/-- A sequence of `get_input` calls with the given prompts, threading the
helper state, collecting the returned strings. -/
def runCalls : List String → HelperState → List String × HelperState
  | [], s => ([], s)
  | m :: ms, s =>
      let p := get_input m s
      let q := runCalls ms p.2
      (p.1 :: q.1, q.2)

theorem get_input_characterization (msg : String) (s : HelperState) :
    (get_input msg s).1
        = (if s.input_index < s.INPUT_QUEUE.length
            then s.INPUT_QUEUE.getD s.input_index "" else "")
    ∧ (get_input msg s).2.sink
        = s.sink ++ msg ++
            (if s.input_index < s.INPUT_QUEUE.length
              then s.INPUT_QUEUE.getD s.input_index "" ++ "\n" else "\n")
    ∧ (get_input msg s).2.input_index
        = (if s.input_index < s.INPUT_QUEUE.length
            then s.input_index + 1 else s.input_index)
    ∧ (get_input msg s).2.INPUT_QUEUE = s.INPUT_QUEUE := by
  by_cases h : s.input_index < s.INPUT_QUEUE.length
  · have h2 : ¬ s.input_index ≥ s.INPUT_QUEUE.length := by omega
    simp [get_input, h, h2, List.getD_eq_getElem, String.append_assoc]
  · have h2 : s.input_index ≥ s.INPUT_QUEUE.length := by omega
    simp [get_input, h, h2, String.append_assoc]

theorem runCalls_invariants (prompts : List String) :
    ∀ (q : List String) (i : Nat) (sink : String), i ≤ q.length →
      ((runCalls prompts ⟨q, i, sink⟩).1
          = (q.drop i).take prompts.length
              ++ List.replicate (prompts.length - (q.length - i)) "")
      ∧ ((runCalls prompts ⟨q, i, sink⟩).2.input_index
          = min (i + prompts.length) q.length) := by
  induction prompts with
  | nil =>
      intro q i sink hi
      constructor
      · simp [runCalls]
      · simp [runCalls]; omega
  | cons m ms ih =>
      intro q i sink hi
      by_cases h : i < q.length
      · have h2 : ¬ i ≥ q.length := by omega
        have step : get_input m ⟨q, i, sink⟩
            = (q.get ⟨i, h⟩, ⟨q, i + 1, sink ++ m ++ q.get ⟨i, h⟩ ++ "\n"⟩) := by
          simp [get_input, h2, String.append_assoc]
        obtain ⟨ih1, ih2⟩ := ih q (i + 1) (sink ++ m ++ q.get ⟨i, h⟩ ++ "\n") (by omega)
        constructor
        · show (get_input m ⟨q, i, sink⟩).1 ::
              (runCalls ms (get_input m ⟨q, i, sink⟩).2).1 = _
          rw [step]
          simp only [ih1]
          have hcount : ms.length + 1 - (q.length - i)
              = ms.length - (q.length - (i + 1)) := by omega
          rw [List.length_cons, hcount, List.drop_eq_getElem_cons h,
            List.take_succ_cons, List.cons_append, List.get_eq_getElem]
        · show (runCalls ms (get_input m ⟨q, i, sink⟩).2).2.input_index = _
          rw [step]
          simp only [ih2]
          simp [List.length_cons]
          omega
      · have hieq : i = q.length := by omega
        have h2 : i ≥ q.length := by omega
        have step : get_input m ⟨q, i, sink⟩ = ("", ⟨q, i, sink ++ m ++ "\n"⟩) := by
          simp [get_input, h2, String.append_assoc]
        obtain ⟨ih1, ih2⟩ := ih q i (sink ++ m ++ "\n") hi
        constructor
        · show (get_input m ⟨q, i, sink⟩).1 ::
              (runCalls ms (get_input m ⟨q, i, sink⟩).2).1 = _
          rw [step]
          simp only [ih1]
          have hd : q.drop i = [] := List.drop_eq_nil_of_le h2
          have hc1 : ms.length + 1 - (q.length - i) = ms.length + 1 := by omega
          have hc2 : ms.length - (q.length - i) = ms.length := by omega
          simp [hd, hc1, hc2, List.replicate_succ]
        · show (runCalls ms (get_input m ⟨q, i, sink⟩).2).2.input_index = _
          rw [step]
          simp only [ih2]
          omega

/-- C2: Each `get_input` call first appends the prompt to the sink with
no trailing newline; on a queue of length `N`, the first `N` calls return
the queue entries in order, every later call appends a bare newline and
returns the empty string, and after `N + k` calls (`k ≥ 1`) the cursor
still sits at `N`. -/
theorem C2_scripted_queue (q prompts : List String) (k : Nat) (hk : 1 ≤ k)
    (hlen : prompts.length = q.length + k) (sink0 : String) :
    ((runCalls prompts ⟨q, 0, sink0⟩).1 = q ++ List.replicate k "")
    ∧ ((runCalls prompts ⟨q, 0, sink0⟩).2.input_index = q.length)
    ∧ (∀ msg s, (get_input msg s).2.sink
        = s.sink ++ msg ++
            (if s.input_index < s.INPUT_QUEUE.length
              then s.INPUT_QUEUE.getD s.input_index "" ++ "\n" else "\n"))
    ∧ (∀ msg s, s.INPUT_QUEUE.length ≤ s.input_index →
        (get_input msg s).1 = ""
          ∧ (get_input msg s).2.input_index = s.input_index) := by
  obtain ⟨h1, h2⟩ := runCalls_invariants prompts q 0 sink0 (Nat.zero_le _)
  refine ⟨?_, ?_, ?_, ?_⟩
  · rw [h1]
    have : (q.drop 0).take prompts.length = q := by
      simp [hlen, List.take_of_length_le]
    rw [this]
    have : prompts.length - (q.length - 0) = k := by omega
    rw [this]
  · rw [h2]; omega
  · intro msg s
    exact (get_input_characterization msg s).2.1
  · intro msg s hs
    have hc := get_input_characterization msg s
    have hnot : ¬ s.input_index < s.INPUT_QUEUE.length := by omega
    exact ⟨by rw [hc.1]; simp [hnot], by rw [hc.2.2.1]; simp [hnot]⟩

/-- Closed witness for `C2_scripted_queue`: queue `["u", "v"]`, three calls:
returns `["u", "v", ""]` and the cursor stays at 2. -/
theorem C2_scripted_queue_witness :
    ((runCalls ["p1", "p2", "p3"] ⟨["u", "v"], 0, ""⟩).1 = ["u", "v", ""])
    ∧ ((runCalls ["p1", "p2", "p3"] ⟨["u", "v"], 0, ""⟩).2.input_index = 2) := by
  have h := C2_scripted_queue ["u", "v"] ["p1", "p2", "p3"] 1 (by decide) (by decide) ""
  exact ⟨h.1, h.2.1⟩

structure StubState : Type where
  SHIP_PLACEMENTS : List (Nat × Nat)
  ship_index : Nat
  TORPEDO_SEQUENCE : List (Nat × Nat)
  torpedo_index : Nat
deriving DecidableEq

/-- Embedding of `choose_ship_location` (src/ex4/test_helper.py lines
82-89): `if SHIP_PLACEMENTS and _ship_index < len(SHIP_PLACEMENTS)` take
the next scripted placement and advance the cursor, else fall back to
`locations[0]` (an `IndexError` on an empty candidate list, modelled as the
`Except` error). -/
def choose_ship_location (board : List (List Nat)) (size : Nat)
    (locations : List (Nat × Nat)) (s : StubState) :
    Except String ((Nat × Nat) × StubState) :=
  if h : s.SHIP_PLACEMENTS ≠ [] ∧ s.ship_index < s.SHIP_PLACEMENTS.length then
    .ok (s.SHIP_PLACEMENTS.get ⟨s.ship_index, h.2⟩,
      { s with ship_index := s.ship_index + 1 })
  else
    match locations with
    | [] => .error "IndexError"
    | l :: _ => .ok (l, s)

/-- Embedding of `choose_torpedo_target` (src/ex4/test_helper.py lines
91-97), same policy over the torpedo queue. -/
def choose_torpedo_target (board : List (List Nat))
    (locations : List (Nat × Nat)) (s : StubState) :
    Except String ((Nat × Nat) × StubState) :=
  if h : s.TORPEDO_SEQUENCE ≠ [] ∧ s.torpedo_index < s.TORPEDO_SEQUENCE.length then
    .ok (s.TORPEDO_SEQUENCE.get ⟨s.torpedo_index, h.2⟩,
      { s with torpedo_index := s.torpedo_index + 1 })
  else
    match locations with
    | [] => .error "IndexError"
    | l :: _ => .ok (l, s)

/-- C6: Both choose operations return the next unread entry of their
per-kind scripted queue while unread entries remain (advancing only their
own cursor), and otherwise return the first candidate of the supplied
non-empty candidate list, leaving the state unchanged. -/
theorem C6_stub_choose_policy (board : List (List Nat)) (size : Nat)
    (locations : List (Nat × Nat)) (s : StubState) :
    (s.ship_index < s.SHIP_PLACEMENTS.length →
      choose_ship_location board size locations s
        = .ok (s.SHIP_PLACEMENTS.getD s.ship_index (0, 0),
            { s with ship_index := s.ship_index + 1 }))
    ∧ (s.SHIP_PLACEMENTS.length ≤ s.ship_index → ∀ l rest,
        locations = l :: rest →
          choose_ship_location board size locations s = .ok (l, s))
    ∧ (s.torpedo_index < s.TORPEDO_SEQUENCE.length →
      choose_torpedo_target board locations s
        = .ok (s.TORPEDO_SEQUENCE.getD s.torpedo_index (0, 0),
            { s with torpedo_index := s.torpedo_index + 1 }))
    ∧ (s.TORPEDO_SEQUENCE.length ≤ s.torpedo_index → ∀ l rest,
        locations = l :: rest →
          choose_torpedo_target board locations s = .ok (l, s)) := by
  refine ⟨fun h => ?_, fun h l rest hl => ?_, fun h => ?_, fun h l rest hl => ?_⟩
  · have hne : s.SHIP_PLACEMENTS ≠ [] := by
      intro he; rw [he] at h; simp at h
    simp [choose_ship_location, hne, h, List.getD_eq_getElem, List.get_eq_getElem]
  · have hnot : ¬ (s.SHIP_PLACEMENTS ≠ []
        ∧ s.ship_index < s.SHIP_PLACEMENTS.length) := by
      rintro ⟨-, hlt⟩; omega
    simp [choose_ship_location, hnot, hl]
  · have hne : s.TORPEDO_SEQUENCE ≠ [] := by
      intro he; rw [he] at h; simp at h
    simp [choose_torpedo_target, hne, h, List.getD_eq_getElem, List.get_eq_getElem]
  · have hnot : ¬ (s.TORPEDO_SEQUENCE ≠ []
        ∧ s.torpedo_index < s.TORPEDO_SEQUENCE.length) := by
      rintro ⟨-, hlt⟩; omega
    simp [choose_torpedo_target, hnot, hl]

/-- Closed witness for `C6_stub_choose_policy`: one scripted placement left
→ it is returned; exhausted torpedo queue → first candidate returned. -/
theorem C6_stub_choose_policy_witness :
    (choose_ship_location [] 3 [(4, 4)] ⟨[(1, 2)], 0, [], 0⟩
        = .ok ((1, 2), ⟨[(1, 2)], 1, [], 0⟩))
    ∧ (choose_torpedo_target [] [(4, 4)] ⟨[(1, 2)], 0, [], 0⟩
        = .ok ((4, 4), ⟨[(1, 2)], 0, [], 0⟩)) :=
  ⟨(C6_stub_choose_policy [] 3 [(4, 4)] ⟨[(1, 2)], 0, [], 0⟩).1 (by decide),
   (C6_stub_choose_policy [] 3 [(4, 4)] ⟨[(1, 2)], 0, [], 0⟩).2.2.2 (by decide)
      (4, 4) [] rfl⟩

/-! ## `TestRunner.capture_output` (src/tests.py lines 86-109)

`sys.stdout` / `sys.stdin` become an explicit stream-state record; raising
Python code becomes an `Except` value, so the `try/finally` is: compute the
body's outcome, run the `finally` restoration, then return or re-raise. -/

inductive Chan : Type where
  | realStdout
  | realStdin
  | stringBuf (contents : String)
deriving DecidableEq

structure SysStreams : Type where
  stdout : Chan
  stdin : Chan
deriving DecidableEq

def chanContents : Chan → String
  | .stringBuf s => s
  | _ => ""

/-- The installation half of `capture_output`: stdout is always replaced by
a fresh `StringIO`; stdin is replaced by a `StringIO` over the input text
only when `input_text` is given (a list of inputs is first joined with
newlines into one string, so a single string field suffices). -/
def installStreams (input_text : Option String) (s0 : SysStreams) : SysStreams :=
  match input_text with
  | some t => { stdout := Chan.stringBuf "", stdin := Chan.stringBuf t }
  | Option.none => { s0 with stdout := Chan.stringBuf "" }

/-- Embedding of `TestRunner.capture_output` (the ex4 tester's
`capture_output`, src/ex4/main_tester.py lines 115-127, is the
`input_text = none` case of the same code).  The target `func` runs with
the replaced streams installed and may itself read or modify them; it
either returns a value or raises.  The `finally` block restores
`old_stdout` unconditionally and `old_stdin` whenever it was saved
(i.e. whenever `input_text` was given), after which the outcome is
returned or the exception re-raised. -/
def capture_output (func : SysStreams → Except String Value × SysStreams)
    (input_text : Option String) (s0 : SysStreams) :
    Except String (Value × String) × SysStreams :=
  let old_stdout := s0.stdout
  let old_stdin : Option Chan :=
    match input_text with
    | some _ => some s0.stdin
    | Option.none => Option.none
  let r := func (installStreams input_text s0)
  let result : Except String (Value × String) :=
    match r.1 with
    | .ok v => .ok (v, chanContents r.2.stdout)
    | .error e => .error e
  let s3 : SysStreams := { r.2 with stdout := old_stdout }
  let s4 : SysStreams :=
    match old_stdin with
    | some c => { s3 with stdin := c }
    | Option.none => s3
  (result, s4)

/-- C4: `capture_output` restores the streams it replaced on every exit
path: the prior stdout always comes back, and when scripted input was
given the whole prior stream state comes back; the target's outcome —
normal return (with the captured text) or raised error — passes through
unchanged, so restoration happens both when the target returns and when it
raises. -/
theorem C4_streams_restored (func : SysStreams → Except String Value × SysStreams)
    (input_text : Option String) (s0 : SysStreams) :
    ((capture_output func input_text s0).2.stdout = s0.stdout)
    ∧ (∀ t, input_text = some t → (capture_output func input_text s0).2 = s0)
    ∧ (∀ e, (func (installStreams input_text s0)).1 = .error e →
        (capture_output func input_text s0).1 = .error e)
    ∧ (∀ v sf, func (installStreams input_text s0) = (.ok v, sf) →
        (capture_output func input_text s0).1 = .ok (v, chanContents sf.stdout)) := by
  refine ⟨?_, fun t ht => ?_, fun e he => ?_, fun v sf hf => ?_⟩
  · cases input_text <;> simp [capture_output]
  · subst ht; simp [capture_output]
  · cases input_text <;> simp [capture_output, he]
  · cases input_text <;> simp [capture_output, hf]

/-- Closed witness for `C4_streams_restored`: a target that raises after
clobbering both streams; the prior real streams still come back, and the
error propagates. -/
theorem C4_streams_restored_witness :
    ((capture_output (fun _ => (.error "boom", ⟨Chan.stringBuf "junk", Chan.stringBuf "junk"⟩))
        (some "scripted") ⟨Chan.realStdout, Chan.realStdin⟩).2
      = ⟨Chan.realStdout, Chan.realStdin⟩)
    ∧ ((capture_output (fun _ => (.error "boom", ⟨Chan.stringBuf "junk", Chan.stringBuf "junk"⟩))
        (some "scripted") ⟨Chan.realStdout, Chan.realStdin⟩).1 = .error "boom") :=
  ⟨(C4_streams_restored _ (some "scripted") _).2.1 "scripted" rfl,
   (C4_streams_restored _ (some "scripted") _).2.2.1 "boom" rfl⟩

/-! ## Order-insensitive comparison (src/ex5/run_harness.py lines 202-209)

Python string primitives (`str.strip`, `str.split`, `sorted`) are modelled
at the character level with structural recursion so that concrete inputs
evaluate inside the kernel. -/

/-- Python `str.strip()` default whitespace set. -/
def pyWhitespace (c : Char) : Bool :=
  c == ' ' || c == '\t' || c == '\n' || c == '\r' || c == '\x0b' || c == '\x0c'

/-- Python `s.strip()`. -/
def pyStrip (s : String) : String :=
  ⟨((s.data.dropWhile pyWhitespace).reverse.dropWhile pyWhitespace).reverse⟩

/-- Python `s.split(sep)` restricted to `sep = chr 10`, on character
lists: every separator ends a field, `[] → [""]`. -/
def splitNL : List Char → List (List Char)
  | [] => [[]]
  | c :: cs =>
      if c = '\n' then [] :: splitNL cs
      else
        match splitNL cs with
        | [] => [[c]]
        | g :: gs => (c :: g) :: gs

def splitLinesPy (s : String) : List String :=
  (splitNL s.data).map (fun cs => ⟨cs⟩)

/-- The non-blank lines of a text block, as built on both sides of the
comparison in the harness: `[line for line in content.strip().split(chr 10) if line.strip()]`. -/
def nonBlankLines (s : String) : List String :=
  (splitLinesPy (pyStrip s)).filter (fun line => !(pyStrip line == ""))

/-- Lexicographic comparison of character lists by code point — the order
Python `sorted` uses on strings. -/
def lexLe : List Char → List Char → Bool
  | [], _ => true
  | _ :: _, [] => false
  | a :: as, b :: bs =>
      if a.toNat < b.toNat then true
      else if b.toNat < a.toNat then false
      else lexLe as bs

def pyLeRel (s t : String) : Prop := lexLe s.data t.data = true

instance : DecidableRel pyLeRel := fun s t => by
  unfold pyLeRel; infer_instance

theorem lexLe_total : ∀ a b : List Char, lexLe a b = true ∨ lexLe b a = true
  | [], b => Or.inl rfl
  | a :: as, [] => Or.inr rfl
  | a :: as, b :: bs => by
      rcases Nat.lt_trichotomy a.toNat b.toNat with h | h | h
      · left; simp [lexLe, h]
      · rcases lexLe_total as bs with ht | ht
        · left; simp [lexLe, h, ht]
        · right; simp [lexLe, h.symm, ht]
      · right; simp [lexLe, h]

theorem lexLe_cons (a b : Char) (as bs : List Char) :
    lexLe (a :: as) (b :: bs) = true ↔
      a.toNat < b.toNat ∨ (a.toNat = b.toNat ∧ lexLe as bs = true) := by
  simp only [lexLe]
  by_cases h1 : a.toNat < b.toNat
  · simp [h1]
  · by_cases h2 : b.toNat < a.toNat
    · simp [h1, h2]; omega
    · have h3 : a.toNat = b.toNat := by omega
      simp [h1, h2, h3]

theorem lexLe_trans : ∀ a b c : List Char,
    lexLe a b = true → lexLe b c = true → lexLe a c = true
  | [], _, _, _, _ => rfl
  | a :: as, [], c, hab, _ => by simp [lexLe] at hab
  | a :: as, b :: bs, [], _, hbc => by simp [lexLe] at hbc
  | a :: as, b :: bs, c :: cs, hab, hbc => by
      rw [lexLe_cons] at hab hbc ⊢
      rcases hab with h1 | ⟨h1, h1t⟩ <;> rcases hbc with h2 | ⟨h2, h2t⟩
      · exact Or.inl (by omega)
      · exact Or.inl (by omega)
      · exact Or.inl (by omega)
      · exact Or.inr ⟨by omega, lexLe_trans as bs cs h1t h2t⟩

theorem lexLe_antisymm : ∀ a b : List Char,
    lexLe a b = true → lexLe b a = true → a = b
  | [], [], _, _ => rfl
  | [], b :: bs, _, hba => by simp [lexLe] at hba
  | a :: as, [], hab, _ => by simp [lexLe] at hab
  | a :: as, b :: bs, hab, hba => by
      rw [lexLe_cons] at hab hba
      rcases hab with h1 | ⟨h1, h1t⟩
      · rcases hba with h2 | ⟨h2, h2t⟩ <;> omega
      · rcases hba with h2 | ⟨h2, h2t⟩
        · omega
        · have hchar : a = b := Char.ext (UInt32.ext h1)
          rw [hchar, lexLe_antisymm as bs h1t h2t]

instance : IsTotal String pyLeRel := ⟨fun a b => lexLe_total a.data b.data⟩

instance : IsTrans String pyLeRel :=
  ⟨fun a b c hab hbc => lexLe_trans a.data b.data c.data hab hbc⟩

instance : IsAntisymm String pyLeRel :=
  ⟨fun a b hab hba => by
    have h := lexLe_antisymm a.data b.data hab hba
    cases a; cases b; simp_all⟩

/-- Python `sorted(lines)`: `sorted` produces the unique permutation of the
input that is sorted for the total order `pyLeRel`; insertion sort is
extensionally that function. -/
def sortedLines (ls : List String) : List String := ls.insertionSort pyLeRel

/-- The order-insensitive verdict of the harness: strip the whole block,
split into lines, drop blank lines, sort both sides, compare
(`actual_sorted == expected_sorted`). -/
def order_insensitive_eq (expected_content actual_content : String) : Bool :=
  sortedLines (nonBlankLines actual_content)
    == sortedLines (nonBlankLines expected_content)

theorem sortedLines_perm_eq {l1 l2 : List String} (h : l1.Perm l2) :
    sortedLines l1 = sortedLines l2 :=
  List.eq_of_perm_of_sorted
    ((List.perm_insertionSort pyLeRel l1).trans
      (h.trans (List.perm_insertionSort pyLeRel l2).symm))
    (List.sorted_insertionSort pyLeRel l1)
    (List.sorted_insertionSort pyLeRel l2)

example : order_insensitive_eq "a\nb" "b\nc" = false := by decide

example : order_insensitive_eq "a\nb" "b\n\na" = true := by decide

/-- C5: The order-insensitive comparison splits each block into its
non-blank lines and compares sorted copies, so its verdict is invariant
under any permutation of the non-blank lines of either input. -/
theorem C5_order_insensitive_perm_invariant (e1 e2 a1 a2 : String)
    (he : (nonBlankLines e1).Perm (nonBlankLines e2))
    (ha : (nonBlankLines a1).Perm (nonBlankLines a2)) :
    order_insensitive_eq e1 a1 = order_insensitive_eq e2 a2 := by
  unfold order_insensitive_eq
  rw [sortedLines_perm_eq he, sortedLines_perm_eq ha]

/-- Closed witness for `C5_order_insensitive_perm_invariant`: swapping the
lines of the expected block and permuting the actual block (blank lines
and all) leaves the verdict unchanged. -/
theorem C5_order_insensitive_perm_invariant_witness :
    order_insensitive_eq "a\nb" "b\n\na" = order_insensitive_eq "b\na" "a\nb" :=
  C5_order_insensitive_perm_invariant "a\nb" "b\na" "b\n\na" "a\nb"
    (by decide) (by decide)

/-! ## Diff rendering of the ex5 harness (src/ex5/run_harness.py lines
214-218) -/

/-- The width configuration of the mismatch rendering in `main`: the
side-by-side view is `difflib.HtmlDiff(wrapcolumn=80).make_table(
expected_sorted, actual_sorted, ...)` — the only width-like parameter in
the construction is the constant wrap column `80`, whatever the two line
lists are. -/
def htmlDiffWrapColumn (expected_sorted actual_sorted : List String) : Nat := 80

/-- Follows the spec's words (not the source): the column width the spec
prescribes for the side-by-side view,
`clamp(longest line length + 2, 20, 60)` over the rendered lines. -/
def claimedColumnWidth (lines : List String) : Nat :=
  max 20 (min 60 (((lines.map String.length).foldl max 0) + 2))

/-- C8 counterexample: For the mismatched pair `["ab"]` / `["cd"]` the
spec's formula gives `clamp(2 + 2, 20, 60) = 20`, but the harness renders
with the constant wrap column `80`: no input-dependent clamped width is
computed anywhere in the rendering call. -/
theorem C8_counterexample :
    htmlDiffWrapColumn ["ab"] ["cd"] = 80
      ∧ claimedColumnWidth (["ab"] ++ ["cd"]) = 20
      ∧ htmlDiffWrapColumn ["ab"] ["cd"] ≠ claimedColumnWidth (["ab"] ++ ["cd"]) := by
  refine ⟨rfl, by decide, by decide⟩

/-- C8 (amended): The rendered side-by-side view is produced by
`difflib.HtmlDiff` with a fixed wrap column of 80, independent of the
content of either line list; no `clamp(longest + 2, 20, 60)` column width
is computed. -/
theorem C8_fixed_wrap_column (expected_sorted actual_sorted : List String) :
    htmlDiffWrapColumn expected_sorted actual_sorted = 80 := rfl
